import Mathlib

/-!
Verification of the Python project-standards compliance checker.

This file gives a shallow embedding of the checker's data model and of the
pure check functions of `check_python_project_standards.py`, together with
theorems settling the specification claims about them.

Modelling conventions:
* A parsed `pyproject.toml` (the result of `toml.loads`) is a nested
  key/value tree `Toml`; the top-level document is a `Config`, a list of
  key/value entries (Python `dict`s have unique keys; association-list
  lookup returns the first match).
* Python's `in` operator on a parsed value is modelled by `pyContains`:
  substring search on strings, element membership on arrays, key membership
  on tables.  Applying `in` to an int/bool raises `TypeError` in Python;
  those inputs are outside the functions' domain and are modelled as a
  non-match.
* Python's `str()` conversion is modelled by `pyStr` (repr-style rendering
  of non-string values, as `str(list)`/`str(dict)` renders elements with
  `repr`; string escaping inside `repr` is not modelled as no claim
  depends on it).
* Python floats are modelled as rationals (`ℚ`); the score arithmetic in
  the claims is exact at the inputs considered.
-/

/-- A parsed TOML value, as produced by `toml.loads`. -/
inductive Toml where
  | str (s : String)
  | int (n : Int)
  | bool (b : Bool)
  | arr (elems : List Toml)
  | table (entries : List (String × Toml))

/-- A parsed top-level `pyproject.toml` document (a Python dict). -/
abbrev Config := List (String × Toml)

/-- First-match association-list lookup (Python dict indexing / `in`). -/
def lookupKey (entries : List (String × Toml)) (k : String) : Option Toml :=
  (entries.find? (fun e => e.1 == k)).map (fun e => e.2)

/-- `v[k]` for a table value; `none` when `v` is not a table or lacks `k`.
Mirrors Python `k in v` / `v[k]` on dicts (membership tests against a
non-dict value are outside the modelled domain). -/
def Toml.item : Toml → String → Option Toml
  | .table entries, k => lookupKey entries k
  | _, _ => none

/-- Python `k in v` for a table value. -/
def Toml.hasKey (v : Toml) (k : String) : Bool :=
  (v.item k).isSome

/-- Python `v.get(k, d)` on a dict value. -/
def Toml.getD (v : Toml) (k : String) (d : Toml) : Toml :=
  (v.item k).getD d

/-- Top-level `k in config`. -/
def cfgHas (config : Config) (k : String) : Bool :=
  (lookupKey config k).isSome

/-- Top-level `config.get(k, d)`. -/
def cfgGetD (config : Config) (k : String) (d : Toml) : Toml :=
  (lookupKey config k).getD d

/-- Python truthiness of a parsed value (`if value:`). -/
def pyTruthy : Toml → Bool
  | .str s => !(s == "")
  | .int n => !(n == 0)
  | .bool b => b
  | .arr l => !l.isEmpty
  | .table entries => !entries.isEmpty

/-- Substring test `needle in hay` on plain strings. -/
def strContains (hay needle : String) : Bool :=
  decide (needle.data <:+: hay.data)

/-- A single-quote character as a string (used by the `repr` rendering). -/
def squote : String := String.singleton (Char.ofNat 39)

mutual

/-- Python `repr` of a parsed value (quoting of strings is modelled
without escape sequences; no claim depends on escaping). -/
def pyRepr : Toml → String
  | .str s => squote ++ s ++ squote
  | .int n => toString n
  | .bool b => if b then "True" else "False"
  | .arr l => "[" ++ pyReprList l ++ "]"
  | .table entries => "\x7b" ++ pyReprTable entries ++ "\x7d"

/-- Comma-separated `repr` of list elements. -/
def pyReprList : List Toml → String
  | [] => ""
  | [x] => pyRepr x
  | x :: xs => pyRepr x ++ ", " ++ pyReprList xs

/-- Comma-separated `repr` of dict entries. -/
def pyReprTable : List (String × Toml) → String
  | [] => ""
  | [e] => squote ++ e.1 ++ squote ++ ": " ++ pyRepr e.2
  | e :: es => squote ++ e.1 ++ squote ++ ": " ++ pyRepr e.2 ++ ", " ++ pyReprTable es

end

/-- Python `str()` of a parsed value: identity on strings, `repr`-style
rendering otherwise (matching `str` on ints, bools, lists and dicts). -/
def pyStr : Toml → String
  | .str s => s
  | v => pyRepr v

/-- Python `needle in v` for a parsed value: substring on strings, element
membership on arrays, key membership on tables.  `in` against an int/bool
raises `TypeError` in Python and is modelled as a non-match. -/
def pyContains (needle : String) : Toml → Bool
  | .str s => strContains s needle
  | .arr l =>
    -- Python `==` between the needle string and an element of another
    -- type is `False`; only string elements can match.
    l.any fun e => match e with | .str s => s == needle | _ => false
  | .table entries => entries.any (fun e => e.1 == needle)
  | _ => false

/-- Python iteration `for x in v`: elements of arrays, characters of
strings, keys of dicts.  Iterating an int/bool raises `TypeError` in
Python and is modelled as the empty iteration. -/
def pyIter : Toml → List Toml
  | .arr l => l
  | .str s => s.data.map (fun c => .str (String.singleton c))
  | .table entries => entries.map (fun e => .str e.1)
  | _ => []

/-- `CURRENT_PYTHON_VERSION` constant of the source. -/
def CURRENT_PYTHON_VERSION : String := "3.13"

/-- `ACCEPTABLE_PYTHON_VERSION` constant of the source. -/
def ACCEPTABLE_PYTHON_VERSION : String := "3.12"

/-- `REQUIRED_KEYWORDS` constant of the source. -/
def REQUIRED_KEYWORDS : List String :=
  ["python-lib", "python-stack", "python-app", "python-shared", "composite-app"]

/-- `SCORE_GOOD` constant of the source. -/
def SCORE_GOOD : ℚ := 75

/-- A single compliance check result (dataclass `ComplianceCheck`). -/
structure ComplianceCheck where
  name : String
  category : String
  passed : Bool
  message : String
  severity : String
deriving DecidableEq, Repr

/-! ## check_python_version -/

/-- The `[tool.poetry.dependencies]` fallback of `check_python_version`:
when `tool`, `tool.poetry` and `tool.poetry.dependencies` are all present,
the located value is `deps.get('python', '')`. -/
def poetryDepsVersion (config : Config) : Option Toml :=
  match lookupKey config "tool" with
  | none => none
  | some tool =>
    match tool.item "poetry" with
    | none => none
    | some poetry =>
      match poetry.item "dependencies" with
      | none => none
      | some deps => some (deps.getD "python" (.str ""))

/-- The version value located by `check_python_version`: first
`project.requires-python`, then the Poetry dependencies fallback. -/
def locatedPythonVersion (config : Config) : Option Toml :=
  match lookupKey config "project" with
  | some proj =>
    match proj.item "requires-python" with
    | some v => some v
    | none => poetryDepsVersion config
  | none => poetryDepsVersion config

/-- `check_python_version` of the source. -/
def check_python_version (config : Config) : ComplianceCheck :=
  if config.isEmpty then
    ⟨"Python Version", "Configuration", false, "pyproject.toml not found or invalid", "error"⟩
  else
    match locatedPythonVersion config with
    | none =>
      ⟨"Python Version", "Configuration", false,
        "Python version not specified in pyproject.toml", "error"⟩
    | some version =>
      if pyContains CURRENT_PYTHON_VERSION version then
        ⟨"Python Version", "Configuration", true,
          "Uses Python " ++ pyStr version ++ " (current standard)", "info"⟩
      else if pyContains ACCEPTABLE_PYTHON_VERSION version then
        ⟨"Python Version", "Configuration", false,
          "Uses Python " ++ pyStr version ++ " (acceptable but should upgrade to >="
            ++ CURRENT_PYTHON_VERSION ++ ")", "warning"⟩
      else
        ⟨"Python Version", "Configuration", false,
          "Uses Python " ++ pyStr version ++ " (should be >=" ++ CURRENT_PYTHON_VERSION ++ ")",
          "error"⟩

/-! ## check_poetry_configuration -/

/-- The `required_plugins` list of `check_poetry_configuration`. -/
def required_plugins : List String :=
  ["poetry-plugin-export", "poetry-plugin-shell", "ld-poetry-export-group-plugin"]

/-- One per-plugin check of `check_poetry_configuration`. -/
def pluginCheck (plugins : Toml) (plugin : String) : ComplianceCheck :=
  if pyContains plugin plugins then
    ⟨"Poetry Plugin: " ++ plugin, "Configuration", true, "Required plugin configured", "info"⟩
  else
    ⟨"Poetry Plugin: " ++ plugin, "Configuration", false, "Missing required plugin", "warning"⟩

/-- The plugin block of `check_poetry_configuration`: one check per
required plugin when `requires-plugins` is present, none otherwise. -/
def pluginChecks (poetry : Toml) : List ComplianceCheck :=
  match poetry.item "requires-plugins" with
  | some plugins => required_plugins.map (pluginCheck plugins)
  | none => []

/-- The `requires-poetry` version check of `check_poetry_configuration`. -/
def poetryReqCheck (version : Toml) : ComplianceCheck :=
  if pyContains ">=2.1" version || pyContains ">=2.0" version || pyContains "^2" version then
    ⟨"Poetry Version", "Configuration", true, "Poetry " ++ pyStr version ++ " specified", "info"⟩
  else
    ⟨"Poetry Version", "Configuration", false, "Should specify Poetry >=2.1", "warning"⟩

/-- The first entry of `build-system.requires` whose lower-cased text
contains `poetry` (the `for`/`break` loop of the source); non-string
entries would raise in Python and are modelled as non-matching. -/
def buildSystemPoetryReq (config : Config) : Option String :=
  match lookupKey config "build-system" with
  | none => none
  | some bs =>
    (pyIter (bs.getD "requires" (.arr []))).findSome? fun r =>
      match r with
      | .str s => if strContains s.toLower "poetry" then some s else none
      | _ => none

/-- The `build-system` version check body of `check_poetry_configuration`. -/
def buildReqCheck (req : String) : ComplianceCheck :=
  if strContains req ">=2.1" || strContains req ">=2.0" || strContains req "^2" then
    ⟨"Poetry Version", "Configuration", true, "Poetry >=2.1 specified", "info"⟩
  else
    ⟨"Poetry Version", "Configuration", false, "Should specify Poetry >=2.1", "warning"⟩

/-- The single `Poetry Version` check appended by
`check_poetry_configuration` when Poetry is in use: the `requires-poetry`
field first, then the `build-system.requires` fallback, then the default
warning (`poetry_found` bookkeeping of the source). -/
def poetryVersionCheck (config : Config) (poetry : Toml) : ComplianceCheck :=
  match poetry.item "requires-poetry" with
  | some version => poetryReqCheck version
  | none =>
    match buildSystemPoetryReq config with
    | some req => buildReqCheck req
    | none => ⟨"Poetry Version", "Configuration", false, "Should specify Poetry >=2.1", "warning"⟩

/-- `check_poetry_configuration` of the source. -/
def check_poetry_configuration (config : Config) : List ComplianceCheck :=
  if config.isEmpty then
    [⟨"Poetry Version", "Configuration", false, "No pyproject.toml found", "error"⟩]
  else
    match (lookupKey config "tool").bind (fun t => t.item "poetry") with
    | none => [⟨"Poetry Version", "Configuration", false, "Not using Poetry", "warning"⟩]
    | some poetry => pluginChecks poetry ++ [poetryVersionCheck config poetry]

/-! ## check_code_quality_tools -/

/-- `config.get('tool', {})`. -/
def toolOf (config : Config) : Toml :=
  cfgGetD config "tool" (.table [])

/-- The Ruff branch of the linter/formatter evaluation: the primary check
plus the optional line-length and quote-style secondary checks. -/
def ruffChecks (ruff : Toml) : List ComplianceCheck :=
  let target := ruff.getD "target-version" (.str "")
  let primary :=
    if pyContains "py313" target || pyContains "py312" target then
      ⟨"Linter/Formatter", "Code Quality", true,
        "Ruff configured with target " ++ pyStr target, "info"⟩
    else
      ⟨"Linter/Formatter", "Code Quality", false,
        "Ruff configured but with outdated target version", "warning"⟩
  -- Python `ruff_config['line-length'] == 120`: only an integer value can
  -- equal 120 in the modelled domain (TOML floats are not modelled).
  let lineLengthIs120 :=
    match ruff.item "line-length" with
    | some (.int n) => n == 120
    | _ => false
  let lineLength :=
    if ruff.hasKey "line-length" && lineLengthIs120 then
      [(⟨"Line Length", "Code Quality", true, "Line length set to 120", "info"⟩ : ComplianceCheck)]
    else []
  let quoteStyle :=
    if ruff.hasKey "format" && ((ruff.item "format").getD (.table [])).hasKey "quote-style" then
      [(⟨"Quote Style", "Code Quality", true, "Quote style configured", "info"⟩ : ComplianceCheck)]
    else []
  primary :: (lineLength ++ quoteStyle)

/-- The linter/formatter block of `check_code_quality_tools`: Ruff first,
then the Black legacy warning, then the hard failure. -/
def linterChecks (tool : Toml) : List ComplianceCheck :=
  match tool.item "ruff" with
  | some ruff => ruffChecks ruff
  | none =>
    if tool.hasKey "black" then
      [⟨"Linter/Formatter", "Code Quality", false, "Uses Black (should migrate to Ruff)",
        "warning"⟩]
    else
      [⟨"Linter/Formatter", "Code Quality", false, "No linter/formatter configured", "error"⟩]

/-- The type-checker block of `check_code_quality_tools`: pyright or
basedpyright first, then the mypy legacy warning, then the default
warning.  (The `type_tool` local of the source is computed but unused in
the emitted messages.) -/
def typeCheckerCheck (tool : Toml) : ComplianceCheck :=
  if tool.hasKey "pyright" || tool.hasKey "basedpyright" then
    let pyrightTool := (tool.item "pyright").getD ((tool.item "basedpyright").getD (.table []))
    let pyVersion := pyrightTool.getD "pythonVersion" (.str "")
    if pyContains CURRENT_PYTHON_VERSION pyVersion then
      ⟨"Type Checker", "Code Quality", true,
        "Pyright configured for Python " ++ pyStr pyVersion, "info"⟩
    else
      ⟨"Type Checker", "Code Quality", false,
        "Pyright not configured for Python " ++ CURRENT_PYTHON_VERSION, "warning"⟩
  else if tool.hasKey "mypy" then
    ⟨"Type Checker", "Code Quality", false, "Uses mypy (consider pyright)", "warning"⟩
  else
    ⟨"Type Checker", "Code Quality", false, "Pyright not configured", "warning"⟩

/-- `check_code_quality_tools` of the source. -/
def check_code_quality_tools (config : Config) : List ComplianceCheck :=
  if config.isEmpty then
    [⟨"Linter/Formatter", "Code Quality", false, "No configuration found", "error"⟩,
     ⟨"Type Checker", "Code Quality", false, "No configuration found", "error"⟩]
  else
    linterChecks (toolOf config) ++ [typeCheckerCheck (toolOf config)]

/-! ## check_testing_configuration -/

/-- `tool.get('pytest', {})`. -/
def pytestCfgOf (config : Config) : Toml :=
  ((toolOf config).item "pytest").getD (.table [])

/-- The `addopts` string of `check_testing_configuration`:
`str(pytest_config.get('ini_options', {}).get('addopts', ''))` when
`ini_options` is present, the empty string otherwise. -/
def addoptsOf (pytestCfg : Toml) : String :=
  if pytestCfg.hasKey "ini_options" then
    pyStr ((pytestCfg.getD "ini_options" (.table [])).getD "addopts" (.str ""))
  else ""

/-- The coverage check of `check_testing_configuration`. -/
def coverageCheck (tool : Toml) (pytestCfg : Toml) : ComplianceCheck :=
  if tool.hasKey "coverage" || strContains (addoptsOf pytestCfg) "--cov" then
    ⟨"Test Coverage", "Testing", true, "Coverage reporting configured", "info"⟩
  else
    ⟨"Test Coverage", "Testing", false, "Coverage reporting not configured", "warning"⟩

/-- `check_testing_configuration` of the source. -/
def check_testing_configuration (config : Config) : List ComplianceCheck :=
  if config.isEmpty then
    [⟨"Test Framework", "Testing", false, "No configuration found", "error"⟩]
  else
    if (toolOf config).hasKey "pytest" then
      [⟨"Test Framework", "Testing", true, "Pytest configured", "info"⟩,
       coverageCheck (toolOf config) (pytestCfgOf config)]
    else
      [⟨"Test Framework", "Testing", false, "Pytest not configured", "error"⟩]

/-! ## check_repository_keywords -/

/-- The keyword list gathered by `check_repository_keywords`:
`project.keywords` when `project` is present (empty default), else
`tool.poetry.keywords` when Poetry is present, else empty. -/
def gatheredKeywords (config : Config) : List Toml :=
  match lookupKey config "project" with
  | some proj => pyIter (proj.getD "keywords" (.arr []))
  | none =>
    match (lookupKey config "tool").bind (fun t => t.item "poetry") with
    | some poetry => pyIter (poetry.getD "keywords" (.arr []))
    | none => []

/-- `any(kw in REQUIRED_KEYWORDS for kw in keywords)`: membership in a
Python list compares with `==`, so only a string keyword can match. -/
def hasRequiredKeyword (config : Config) : Bool :=
  (gatheredKeywords config).any fun kw =>
    match kw with
    | .str s => REQUIRED_KEYWORDS.any (fun r => r == s)
    | _ => false

/-- `check_repository_keywords` of the source. -/
def check_repository_keywords (config : Config) : ComplianceCheck :=
  if config.isEmpty then
    ⟨"Repository Keywords", "Configuration", false, "No pyproject.toml found", "error"⟩
  else if hasRequiredKeyword config then
    ⟨"Repository Keywords", "Configuration", true, "Has required keyword(s)", "info"⟩
  else
    ⟨"Repository Keywords", "Configuration", false,
      "Missing required keyword. Should have one of: " ++ String.intercalate ", " REQUIRED_KEYWORDS,
      "error"⟩

/-! ## ComplianceReport -/

/-- A compliance report (dataclass `ComplianceReport`; the `metadata`
mapping is only a cache for the rendered score and is not modelled). -/
structure ComplianceReport where
  repo_identifier : String
  repo_name : String
  repo_type : String
  checks : List ComplianceCheck
deriving DecidableEq

/-- `ComplianceReport.total_checks`. -/
def total_checks (r : ComplianceReport) : Nat :=
  r.checks.length

/-- `ComplianceReport.passed_checks`: `sum(1 for check in checks if check.passed)`. -/
def passed_checks (r : ComplianceReport) : Nat :=
  r.checks.countP (fun c => c.passed)

/-- `ComplianceReport.failed_checks`: `sum(1 for check in checks if not check.passed)`. -/
def failed_checks (r : ComplianceReport) : Nat :=
  r.checks.countP (fun c => !c.passed)

/-- `ComplianceReport.calculate_score`, with Python float division
modelled exactly over the rationals. -/
def calculate_score (r : ComplianceReport) : ℚ :=
  if total_checks r = 0 then 0
  else ((passed_checks r : ℚ) / (total_checks r : ℚ)) * 100

/-- `BaseChecker.run_standard_checks`: the fixed sequence of rule-function
results appended to the report. -/
def standardChecks (config : Config) : List ComplianceCheck :=
  [check_python_version config]
    ++ check_poetry_configuration config
    ++ check_code_quality_tools config
    ++ check_testing_configuration config
    ++ [check_repository_keywords config]

/-! ## LocalChecker

The filesystem visible to `LocalChecker` is modelled as the answers the
checker's queries can receive: whether the resolved path exists and is a
directory, which relative paths exist under it, the parsed
`pyproject.toml` (`load_config` returns the empty model when the file is
missing or unparseable), the workflow file names matched by the
`*.yml`/`*.yaml` globs, and each workflow file's text. -/

structure LocalFS where
  pathExists : Bool
  isDirectory : Bool
  fileAt : String → Bool
  config : Config
  workflowFiles : List String
  workflowText : String → String
  pathStr : String
  repoName : String

/-- The shared SonarCloud Python-version sub-check (identical in
`LocalChecker.check_additional_files` and
`GitHubChecker.check_additional_files`): locate a version value, then
require it to be truthy and to contain the current version. -/
def sonarVersionCheck (config : Config) : ComplianceCheck :=
  -- `py_version = None`, then `if 'project' in config and 'requires-python'
  -- in config['project']`, `elif 'tool' in config and 'poetry' in
  -- config['tool']: py_version = poetry.get('dependencies', {}).get('python', '')`
  let poetryFallback : Option Toml :=
    match (lookupKey config "tool").bind (fun t => t.item "poetry") with
    | some poetry => some (poetry.getD "dependencies" (.table []) |>.getD "python" (.str ""))
    | none => none
  let pyVersion : Option Toml :=
    match lookupKey config "project" with
    | some proj =>
      match proj.item "requires-python" with
      | some v => some v
      | none => poetryFallback
    | none => poetryFallback
  let current :=
    match pyVersion with
    | some v => pyTruthy v && pyContains CURRENT_PYTHON_VERSION v
    | none => false
  if current then
    ⟨"SonarCloud", "Code Quality", true,
      "SonarCloud configured for Python " ++ CURRENT_PYTHON_VERSION, "info"⟩
  else
    ⟨"SonarCloud", "Code Quality", false,
      "SonarCloud configured but not for Python " ++ CURRENT_PYTHON_VERSION, "warning"⟩

/-- `LocalChecker.check_additional_files`. -/
def localAdditionalChecks (fs : LocalFS) : List ComplianceCheck :=
  let readme :=
    if fs.fileAt "README.md" then
      [(⟨"README.md", "Documentation", true, "README.md present", "info"⟩ : ComplianceCheck)]
    else
      [(⟨"README.md", "Documentation", false, "README.md missing", "error"⟩ : ComplianceCheck)]
  let srd :=
    if fs.fileAt "SRD.md" then
      [(⟨"SRD.md", "Documentation", true, "System Readiness Document present", "info"⟩ :
        ComplianceCheck)]
    else
      [(⟨"SRD.md", "Documentation", false, "System Readiness Document missing", "error"⟩ :
        ComplianceCheck)]
  let lockfile :=
    if pyTruthy ((cfgGetD fs.config "tool" (.table [])).getD "poetry" (.table [])) then
      if fs.fileAt "poetry.lock" then
        [(⟨"Poetry Lock File", "Configuration", true, "poetry.lock present", "info"⟩ :
          ComplianceCheck)]
      else
        [(⟨"Poetry Lock File", "Configuration", false, "poetry.lock missing", "error"⟩ :
          ComplianceCheck)]
    else []
  let workflows :=
    if fs.fileAt ".github/workflows" then
      (if fs.fileAt ".github/workflows/PythonManager.yml" then
        [(⟨"Python Manager Workflow", "CI/CD", true, "PythonManager.yml workflow present",
          "info"⟩ : ComplianceCheck)]
      else
        [(⟨"Python Manager Workflow", "CI/CD", false, "Missing PythonManager.yml workflow",
          "error"⟩ : ComplianceCheck)]) ++
      (if fs.workflowFiles.any (fun f => strContains f.toLower "ruff"
            || strContains f.toLower "format") then
        [(⟨"Ruff Formatting Workflow", "CI/CD", true, "Ruff auto-formatting workflow present",
          "info"⟩ : ComplianceCheck)]
      else
        [(⟨"Ruff Formatting Workflow", "CI/CD", false, "Missing Ruff auto-formatting workflow",
          "warning"⟩ : ComplianceCheck)])
    else
      [⟨"Python Manager Workflow", "CI/CD", false, "No .github/workflows directory", "error"⟩,
       ⟨"Ruff Formatting Workflow", "CI/CD", false, "No .github/workflows directory", "warning"⟩]
  let claudeMd :=
    if fs.fileAt "CLAUDE.md" then
      [(⟨"CLAUDE.md", "Documentation", true, "AI assistant instructions present (optional)",
        "info"⟩ : ComplianceCheck)]
    else []
  let aiTracking :=
    if fs.fileAt ".ai/README.md" then
      [(⟨"AI Tracking", "Documentation", true, "AI development tracking configured (optional)",
        "info"⟩ : ComplianceCheck)]
    else []
  let hasSonar :=
    fs.fileAt "sonar-project.properties" || fs.fileAt ".sonarcloud.properties"
      || (fs.fileAt ".github/workflows" && fs.workflowFiles.any (fun wf =>
            strContains (fs.workflowText wf).toLower "sonarcloud"
              || strContains (fs.workflowText wf).toLower "sonar"))
  let sonar :=
    if hasSonar then
      if fs.config.isEmpty then
        [(⟨"SonarCloud", "Code Quality", true, "SonarCloud configuration found", "info"⟩ :
          ComplianceCheck)]
      else [sonarVersionCheck fs.config]
    else
      [(⟨"SonarCloud", "Code Quality", false, "SonarCloud not configured", "warning"⟩ :
        ComplianceCheck)]
  readme ++ srd ++ lockfile ++ workflows ++ claudeMd ++ aiTracking ++ sonar

/-- `LocalChecker.check_repository`: on a missing or non-directory path
the report is still produced, holding the single failing
`Repository Access` check; otherwise the standard and additional checks
run. -/
def localCheckRepository (fs : LocalFS) : ComplianceReport :=
  if !(fs.pathExists && fs.isDirectory) then
    { repo_identifier := fs.pathStr, repo_name := fs.repoName, repo_type := "local",
      checks := [⟨"Repository Access", "Infrastructure", false,
        "Path does not exist or is not a directory: " ++ fs.pathStr, "error"⟩] }
  else
    { repo_identifier := fs.pathStr, repo_name := fs.repoName, repo_type := "local",
      checks := standardChecks fs.config ++ localAdditionalChecks fs }

/-- The `main` wrapper around a local scan: `check_repository` raises no
exception on a local target (the `except`/exit-2 path is unreachable for
the local checker), so the outcome is always a report plus the score-based
exit code (`0` when the score reaches `SCORE_GOOD`, else `1`). -/
def mainLocalScan (fs : LocalFS) : Except String (ComplianceReport × Nat) :=
  let report := localCheckRepository fs
  .ok (report, if SCORE_GOOD ≤ calculate_score report then 0 else 1)

/-! ## GitHubChecker

Remote repository access goes through `_run_gh_command`.  One invocation
of the external `gh` CLI is modelled by its observable outcome
(`GhOutcome`); a whole remote environment is an oracle mapping the
argument list of each invocation to its outcome. -/

/-- The outcome of one `subprocess.run(['gh'] + args, ...)` call:
success with captured stdout, a non-zero exit (`CalledProcessError`), or
a `TimeoutExpired` after the 10-second bound. -/
inductive GhOutcome where
  | success (stdout : String)
  | failure
  | timeout

/-- A remote environment: the outcome of each `gh` invocation. -/
def GhOracle := List String → GhOutcome

/-- `GitHubChecker._run_gh_command`: stdout on success, and `None` for
both `CalledProcessError` and `TimeoutExpired`. -/
def runGhCommand (oracle : GhOracle) (args : List String) : Option String :=
  match oracle args with
  | .success stdout => some stdout
  | .failure => none
  | .timeout => none

/-- The argument list of the `_file_exists` query. -/
def fileExistsArgs (repo path : String) : List String :=
  ["api", "/repos/" ++ repo ++ "/contents/" ++ path, "--jq", ".name"]

/-- `GitHubChecker._file_exists`: `result is not None and
result.strip() not in ['null', '']`. -/
def ghFileExists (oracle : GhOracle) (repo path : String) : Bool :=
  match runGhCommand oracle (fileExistsArgs repo path) with
  | none => false
  | some result => !(result.trim == "null" || result.trim == "")

/-- Base64 value of one alphabet character. -/
def b64Val (c : Char) : Option Nat :=
  if 'A' ≤ c ∧ c ≤ 'Z' then some (c.toNat - 65)
  else if 'a' ≤ c ∧ c ≤ 'z' then some (c.toNat - 97 + 26)
  else if '0' ≤ c ∧ c ≤ '9' then some (c.toNat - 48 + 52)
  else if c = '+' then some 62
  else if c = '/' then some 63
  else none

/-- Decode base64 quartets into bytes; padding (`=`) is accepted only at
the end.  Mirrors `base64.b64decode` on its accepting inputs (the
`validate=False` behavior of discarding non-alphabet characters is applied
by the caller). -/
def b64Quartets : List Char → Option (List Nat)
  | [] => some []
  | c1 :: c2 :: c3 :: c4 :: rest =>
    match b64Val c1, b64Val c2 with
    | some v1, some v2 =>
      if c3 = '=' then
        if c4 = '=' ∧ rest = [] then some [v1 * 4 + v2 / 16] else none
      else
        match b64Val c3 with
        | some v3 =>
          if c4 = '=' then
            if rest = [] then some [v1 * 4 + v2 / 16, (v2 % 16) * 16 + v3 / 4] else none
          else
            match b64Val c4 with
            | some v4 =>
              match b64Quartets rest with
              | some tail =>
                some ([v1 * 4 + v2 / 16, (v2 % 16) * 16 + v3 / 4, (v3 % 4) * 64 + v4] ++ tail)
              | none => none
            | none => none
        | none => none
    | _, _ => none
  | _ => none

/-- Whether a byte is a UTF-8 continuation byte. -/
def utf8Cont (b : Nat) : Bool :=
  128 ≤ b && b < 192

/-- Strict UTF-8 decoding of a byte sequence (`bytes.decode('utf-8')`):
rejects truncated sequences, stray continuation bytes, overlong forms,
surrogates and out-of-range code points. -/
def utf8Decode : List Nat → Option (List Char)
  | [] => some []
  | b :: bs =>
    if b < 128 then
      match utf8Decode bs with
      | some cs => some (Char.ofNat b :: cs)
      | none => none
    else if 194 ≤ b && b ≤ 223 then
      match bs with
      | b1 :: bs1 =>
        if utf8Cont b1 then
          match utf8Decode bs1 with
          | some cs => some (Char.ofNat ((b - 192) * 64 + (b1 - 128)) :: cs)
          | none => none
        else none
      | [] => none
    else if 224 ≤ b && b ≤ 239 then
      match bs with
      | b1 :: b2 :: bs2 =>
        if utf8Cont b1 && utf8Cont b2 then
          let cp := (b - 224) * 4096 + (b1 - 128) * 64 + (b2 - 128)
          if 2048 ≤ cp ∧ ¬(55296 ≤ cp ∧ cp ≤ 57343) then
            match utf8Decode bs2 with
            | some cs => some (Char.ofNat cp :: cs)
            | none => none
          else none
        else none
      | _ => none
    else if 240 ≤ b && b ≤ 244 then
      match bs with
      | b1 :: b2 :: b3 :: bs3 =>
        if utf8Cont b1 && utf8Cont b2 && utf8Cont b3 then
          let cp := (b - 240) * 262144 + (b1 - 128) * 4096 + (b2 - 128) * 64 + (b3 - 128)
          if 65536 ≤ cp ∧ cp ≤ 1114111 then
            match utf8Decode bs3 with
            | some cs => some (Char.ofNat cp :: cs)
            | none => none
          else none
        else none
      | _ => none
    else none

/-- `base64.b64decode(s).decode('utf-8')` as an `Option`: non-alphabet
characters are discarded first (`validate=False`), then quartets are
decoded and the bytes UTF-8 decoded; `none` models the raised
`binascii.Error`/`UnicodeDecodeError`. -/
def b64DecodeUtf8 (s : String) : Option String :=
  let cs := s.data.filter (fun c => (b64Val c).isSome || c = '=')
  match b64Quartets cs with
  | some bytes =>
    match utf8Decode bytes with
    | some chars => some (String.mk chars)
    | none => none
  | none => none

/-- Argument list of the first `_get_file_content` attempt. -/
def contentArgsJq (repo path : String) : List String :=
  ["api", "/repos/" ++ repo ++ "/contents/" ++ path, "-q", ".content",
   "--header", "Accept: application/vnd.github.raw"]

/-- Argument list of the second `_get_file_content` attempt. -/
def contentArgsRaw (repo path : String) : List String :=
  ["api", "/repos/" ++ repo ++ "/contents/" ++ path,
   "--header", "Accept: application/vnd.github.raw"]

/-- The fallback attempt of `_get_file_content`. -/
def getFileContentAlt (oracle : GhOracle) (repo path : String) : Option String :=
  match runGhCommand oracle (contentArgsRaw repo path) with
  | some content => if content == "" || content.trim == "" then none else some content
  | none => none

/-- `GitHubChecker._get_file_content`: try the `.content` query first
(decoding apparent base64 payloads; a failed decode falls back to the
stripped text, which the source has already reassigned), then the raw
query. -/
def getFileContent (oracle : GhOracle) (repo path : String) : Option String :=
  match runGhCommand oracle (contentArgsJq repo path) with
  | some content =>
    if !(content == "") && !(content.trim == "") && !(content.trim == "null") then
      if !(content.startsWith "\x7b") then
        let cleaned := ((content.trim.replace "\n" "").replace " " "")
        match b64DecodeUtf8 cleaned with
        | some decoded => some decoded
        | none => some cleaned
      else some content
    else getFileContentAlt oracle repo path
  | none => getFileContentAlt oracle repo path

/-- Argument list of the workflow-directory listing. -/
def workflowListArgs (repo : String) : List String :=
  ["api", "/repos/" ++ repo ++ "/contents/.github/workflows", "--jq", ".[].name"]

/-- `GitHubChecker.check_additional_files`: the six checks of the
additional-files stage, in source order.  Every branch of every stage
appends exactly one check, so the stage always contributes all six
regardless of the oracle's outcomes. -/
def githubAdditionalChecks (oracle : GhOracle) (repo : String) (config : Config) :
    List ComplianceCheck :=
  let workflows := runGhCommand oracle (workflowListArgs repo)
  let readme :=
    if ghFileExists oracle repo "README.md" then
      (⟨"README.md", "Documentation", true, "README.md present", "info"⟩ : ComplianceCheck)
    else ⟨"README.md", "Documentation", false, "README.md missing", "error"⟩
  let srd :=
    if ghFileExists oracle repo "SRD.md" then
      (⟨"SRD.md", "Documentation", true, "System Readiness Document present", "info"⟩ :
        ComplianceCheck)
    else ⟨"SRD.md", "Documentation", false, "System Readiness Document missing", "error"⟩
  let lockfile :=
    if pyTruthy ((cfgGetD config "tool" (.table [])).getD "poetry" (.table [])) then
      if ghFileExists oracle repo "poetry.lock" then
        (⟨"Poetry Lock File", "Configuration", true, "poetry.lock present", "info"⟩ :
          ComplianceCheck)
      else ⟨"Poetry Lock File", "Configuration", false, "poetry.lock missing", "error"⟩
    else ⟨"Poetry Lock File", "Configuration", true, "No problems noted", "info"⟩
  let pythonManager :=
    if ghFileExists oracle repo ".github/workflows/PythonManager.yml" then
      (⟨"Python Manager Workflow", "CI/CD", true, "PythonManager.yml workflow present",
        "info"⟩ : ComplianceCheck)
    else
      ⟨"Python Manager Workflow", "CI/CD", false, "Missing PythonManager.yml workflow", "error"⟩
  let hasRuffWorkflow :=
    match workflows with
    | some w => (w.trim.splitOn "\n").any (fun wf =>
        strContains wf.toLower "ruff" || strContains wf.toLower "format")
    | none => false
  let ruffWorkflow :=
    if hasRuffWorkflow then
      (⟨"Ruff Formatting Workflow", "CI/CD", true, "Ruff auto-formatting workflow present",
        "info"⟩ : ComplianceCheck)
    else
      ⟨"Ruff Formatting Workflow", "CI/CD", false, "Missing Ruff auto-formatting workflow",
        "warning"⟩
  let hasSonar :=
    ghFileExists oracle repo "sonar-project.properties"
      || ghFileExists oracle repo ".sonarcloud.properties"
      || (match workflows with
          | some w => (w.trim.splitOn "\n").any (fun wn =>
              !(wn == "") && !(wn == "null") &&
                (match getFileContent oracle repo (".github/workflows/" ++ wn) with
                 | some wc => !(wc == "") &&
                     (strContains wc.toLower "sonarcloud" || strContains wc.toLower "sonar")
                 | none => false))
          | none => false)
  let sonar :=
    if hasSonar then
      if config.isEmpty then
        (⟨"SonarCloud", "Code Quality", true, "SonarCloud configuration found", "info"⟩ :
          ComplianceCheck)
      else sonarVersionCheck config
    else ⟨"SonarCloud", "Code Quality", false, "SonarCloud not configured", "warning"⟩
  [readme, srd, lockfile, pythonManager, ruffWorkflow, sonar]

/-! ## determine_repository_type

The four anchored patterns of `determine_repository_type` are translated
into character-list matchers.  The character class `[\w-]` is modelled
over ASCII (`isAlphanum`, underscore, hyphen); Python's `\w` additionally
matches non-ASCII word characters, which no claim exercises.  Because the
class can never match `/` or `:`, greedy maximal munch coincides with the
backtracking semantics of `re.match` on these patterns. -/

/-- One character of the `[\w-]` class. -/
def isWordDash (c : Char) : Bool :=
  c.isAlphanum || c == '_' || c == '-'

/-- Match `[\w-]+` at the head of the input, returning the remainder. -/
def munchSeg : List Char → Option (List Char)
  | [] => none
  | c :: cs => if isWordDash c then some (cs.dropWhile isWordDash) else none

/-- Match `[\w-]+/[\w-]+` at the head of the input. -/
def matchPair (l : List Char) : Option (List Char) :=
  match munchSeg l with
  | some (c :: r) => if c = '/' then munchSeg r else none
  | _ => none

/-- Match a literal at the head of the input, returning the remainder. -/
def stripLit : List Char → List Char → Option (List Char)
  | [], l => some l
  | _ :: _, [] => none
  | p :: ps, c :: cs => if p = c then stripLit ps cs else none

/-- Match a literal followed by `[\w-]+/[\w-]+` (shared shape of three of
the four patterns). -/
def pairAfterLit (pre l : List Char) : Bool :=
  match stripLit pre l with
  | some r => (matchPair r).isSome
  | none => false

/-- Match `https?://` at the head of the input. -/
def stripScheme (l : List Char) : Option (List Char) :=
  match stripLit "http".data l with
  | none => none
  | some r =>
    match stripLit "s://".data r with
    | some r2 => some r2
    | none => stripLit "://".data r

/-- `re.match(r'^https?://github\.com/[\w-]+/[\w-]+', s)` as a Bool. -/
def matchHttpGithub (s : String) : Bool :=
  match stripScheme s.data with
  | some r => pairAfterLit "github.com/".data r
  | none => false

/-- `re.match(r'^git@github\.com:[\w-]+/[\w-]+', s)` as a Bool. -/
def matchGitAtGithub (s : String) : Bool :=
  pairAfterLit "git@github.com:".data s.data

/-- `re.match(r'^github\.com/[\w-]+/[\w-]+', s)` as a Bool. -/
def matchBareGithub (s : String) : Bool :=
  pairAfterLit "github.com/".data s.data

/-- `re.match(r'^[\w-]+/[\w-]+$', s)` as a Bool (both ends anchored). -/
def matchOwnerRepo (s : String) : Bool :=
  matchPair s.data == some []

/-- `determine_repository_type` of the source. -/
def determine_repository_type (s : String) : String :=
  if matchHttpGithub s || matchGitAtGithub s || matchBareGithub s || matchOwnerRepo s then
    "github"
  else "local"

/-! Declarative reading of the four patterns, written from the spec's
description (an `OWNER`/`NAME` segment is a non-empty run of
word-characters and hyphens), to be proved equivalent to the matchers. -/

/-- A non-empty run of word-characters and hyphens. -/
def WordSeg (w : List Char) : Prop :=
  w ≠ [] ∧ ∀ c ∈ w, isWordDash c = true

/-- The string has shape `https?://github.com/OWNER/NAME...`. -/
def HttpSpec (s : String) : Prop :=
  ∃ scheme o n rest, (scheme = "http://" ∨ scheme = "https://") ∧ WordSeg o ∧ WordSeg n ∧
    s.data = scheme.data ++ ("github.com/".data ++ (o ++ '/' :: (n ++ rest)))

/-- The string has shape `git@github.com:OWNER/NAME...`. -/
def GitAtSpec (s : String) : Prop :=
  ∃ o n rest, WordSeg o ∧ WordSeg n ∧
    s.data = "git@github.com:".data ++ (o ++ '/' :: (n ++ rest))

/-- The string has shape `github.com/OWNER/NAME...`. -/
def BareHostSpec (s : String) : Prop :=
  ∃ o n rest, WordSeg o ∧ WordSeg n ∧
    s.data = "github.com/".data ++ (o ++ '/' :: (n ++ rest))

/-- The string is exactly `OWNER/NAME`. -/
def OwnerRepoSpec (s : String) : Prop :=
  ∃ o n, WordSeg o ∧ WordSeg n ∧ s.data = o ++ '/' :: n

/-- The string matches one of the four remote patterns. -/
def MatchesRemotePattern (s : String) : Prop :=
  HttpSpec s ∨ GitAtSpec s ∨ BareHostSpec s ∨ OwnerRepoSpec s

/-! ## Theorems -/

/-- C1: for every report, the passed and failed counts partition the
total, and `calculate_score` is `100 * passed/total` when `total > 0` and
`0` when `total = 0` (the zero-total guard means the division is never
taken with a zero denominator). -/
theorem report_score_invariant (r : ComplianceReport) :
    passed_checks r + failed_checks r = total_checks r ∧
    calculate_score r =
      (if total_checks r = 0 then (0 : ℚ)
       else 100 * (passed_checks r : ℚ) / (total_checks r : ℚ)) := by
  constructor
  · have h := List.length_eq_countP_add_countP (p := fun c : ComplianceCheck => c.passed)
      (l := r.checks)
    unfold passed_checks failed_checks total_checks
    rw [h]
    congr 1
    apply List.countP_congr
    intro c _
    cases c.passed <;> simp
  · unfold calculate_score
    split
    · rfl
    · rw [div_mul_eq_mul_div, mul_comm]

/-- C2: whenever the located version value contains the current-version
token `3.13` (even if `3.12` also occurs in it), `check_python_version`
returns the single passing, info-severity result of the current tier. -/
theorem version_rule_current_wins (config : Config) (v : Toml)
    (h₁ : locatedPythonVersion config = some v)
    (h₂ : pyContains CURRENT_PYTHON_VERSION v = true) :
    check_python_version config =
      ⟨"Python Version", "Configuration", true,
        "Uses Python " ++ pyStr v ++ " (current standard)", "info"⟩ := by
  have hne : config.isEmpty = false := by
    cases config with
    | nil => simp [locatedPythonVersion, poetryDepsVersion, lookupKey] at h₁
    | cons a l => rfl
  unfold check_python_version
  rw [hne, h₁]
  simp [h₂]

/-- Witness for C2 at the spec's example `requires-python = ">=3.13,<3.14"`. -/
theorem version_rule_current_wins_witness :
    check_python_version [("project", Toml.table [("requires-python", Toml.str ">=3.13,<3.14")])] =
      ⟨"Python Version", "Configuration", true,
        "Uses Python >=3.13,<3.14 (current standard)", "info"⟩ :=
  version_rule_current_wins _ (Toml.str ">=3.13,<3.14") rfl (by decide)

/-- C5 counterexample: the empty configuration (missing or unparseable
manifest) also has no version value at either location, yet the emitted
message is the not-found message, not a "not specified" message. -/
theorem version_rule_no_version_counterexample :
    locatedPythonVersion ([] : Config) = none ∧
    check_python_version ([] : Config) =
      ⟨"Python Version", "Configuration", false, "pyproject.toml not found or invalid",
        "error"⟩ ∧
    strContains "pyproject.toml not found or invalid" "not specified" = false := by
  refine ⟨rfl, rfl, by decide⟩

/-- C5 (amended): for every non-empty configuration in which neither
location yields a version value, `check_python_version` emits the single
failing, error-severity "not specified" result. -/
theorem version_rule_not_specified (config : Config)
    (h₁ : config.isEmpty = false)
    (h₂ : locatedPythonVersion config = none) :
    check_python_version config =
      ⟨"Python Version", "Configuration", false,
        "Python version not specified in pyproject.toml", "error"⟩ := by
  unfold check_python_version
  rw [h₁, h₂]
  rfl

/-- Witness for the amended C5: a manifest with a `project` table that has
no `requires-python` and no Poetry section. -/
theorem version_rule_not_specified_witness :
    check_python_version [("project", Toml.table [("name", Toml.str "demo")])] =
      ⟨"Python Version", "Configuration", false,
        "Python version not specified in pyproject.toml", "error"⟩ :=
  version_rule_not_specified _ rfl rfl

/-- A key whose membership test is false has no value. -/
lemma item_none_of_hasKey_false {v : Toml} {k : String} (h : v.hasKey k = false) :
    v.item k = none := by
  unfold Toml.hasKey at h
  cases hi : v.item k with
  | none => rfl
  | some w => rw [hi] at h; simp at h

/-- On a non-empty configuration, `check_code_quality_tools` is the linter
block followed by the single type-checker check. -/
lemma check_code_quality_tools_eq (config : Config) (h : config.isEmpty = false) :
    check_code_quality_tools config =
      linterChecks (toolOf config) ++ [typeCheckerCheck (toolOf config)] := by
  unfold check_code_quality_tools
  rw [h]
  rfl

/-- C6: for every non-empty configuration, the testing rule emits exactly
one error result when the pytest section is absent, and exactly two
results when it is present — a passing framework result plus a coverage
result that passes iff a coverage section exists in `tool` or `--cov`
occurs in the pytest `ini_options.addopts` field, and otherwise is a
warning-severity failure. -/
theorem testing_rule (config : Config) (h : config.isEmpty = false) :
    ((toolOf config).hasKey "pytest" = false →
      check_testing_configuration config =
        [⟨"Test Framework", "Testing", false, "Pytest not configured", "error"⟩]) ∧
    ((toolOf config).hasKey "pytest" = true →
      check_testing_configuration config =
        [⟨"Test Framework", "Testing", true, "Pytest configured", "info"⟩,
         coverageCheck (toolOf config) (pytestCfgOf config)] ∧
      (coverageCheck (toolOf config) (pytestCfgOf config)).passed =
        ((toolOf config).hasKey "coverage"
          || strContains (addoptsOf (pytestCfgOf config)) "--cov") ∧
      (((toolOf config).hasKey "coverage"
          || strContains (addoptsOf (pytestCfgOf config)) "--cov") = false →
        coverageCheck (toolOf config) (pytestCfgOf config) =
          ⟨"Test Coverage", "Testing", false, "Coverage reporting not configured", "warning"⟩)) := by
  constructor
  · intro hp
    unfold check_testing_configuration
    rw [h, hp]
    rfl
  · intro hp
    refine ⟨?_, ?_, ?_⟩
    · unfold check_testing_configuration
      rw [h, hp]
      rfl
    · unfold coverageCheck
      cases hc : ((toolOf config).hasKey "coverage"
          || strContains (addoptsOf (pytestCfgOf config)) "--cov") <;> rfl
    · intro hc
      unfold coverageCheck
      rw [hc]
      rfl

/-- Witness for C6 at the spec's example: pytest present with no coverage
indicators gives exactly two results, framework pass and coverage fail. -/
theorem testing_rule_witness :
    check_testing_configuration [("tool", Toml.table [("pytest", Toml.table [])])] =
      [⟨"Test Framework", "Testing", true, "Pytest configured", "info"⟩,
       ⟨"Test Coverage", "Testing", false, "Coverage reporting not configured", "warning"⟩] := by
  have h2 := (testing_rule [("tool", Toml.table [("pytest", Toml.table [])])] rfl).2 rfl
  rw [h2.1, h2.2.2 rfl]

/-- C8: for every non-empty configuration, the keyword rule passes iff
the gathered keyword list meets the fixed required-keyword set, and a
failing result's message lists the allowed set. -/
theorem keyword_rule (config : Config) (h : config.isEmpty = false) :
    ((check_repository_keywords config).passed = true ↔
      ∃ r ∈ REQUIRED_KEYWORDS, Toml.str r ∈ gatheredKeywords config) ∧
    ((check_repository_keywords config).passed = false →
      (check_repository_keywords config).message =
        "Missing required keyword. Should have one of: "
          ++ String.intercalate ", " REQUIRED_KEYWORDS) := by
  constructor
  · have hpassed : (check_repository_keywords config).passed = hasRequiredKeyword config := by
      unfold check_repository_keywords
      rw [h]
      cases hk : hasRequiredKeyword config <;> rfl
    rw [hpassed]
    unfold hasRequiredKeyword
    rw [List.any_eq_true]
    constructor
    · rintro ⟨kw, hmem, hkw⟩
      cases kw with
      | str s =>
        rw [List.any_eq_true] at hkw
        obtain ⟨r, hr, hrs⟩ := hkw
        refine ⟨r, hr, ?_⟩
        rw [eq_of_beq hrs]
        exact hmem
      | int n => simp at hkw
      | bool b => simp at hkw
      | arr l => simp at hkw
      | table t => simp at hkw
    · rintro ⟨r, hr, hmem⟩
      refine ⟨Toml.str r, hmem, ?_⟩
      rw [List.any_eq_true]
      exact ⟨r, hr, by simp⟩
  · intro hf
    unfold check_repository_keywords at hf ⊢
    rw [h] at hf ⊢
    cases hk : hasRequiredKeyword config
    · rfl
    · rw [hk] at hf
      simp at hf

/-- Witness for C8 at the spec's example: manifest keywords
`["python-lib"]` pass the keyword rule. -/
theorem keyword_rule_witness :
    (check_repository_keywords
        [("project", Toml.table [("keywords", Toml.arr [Toml.str "python-lib"])])]).passed
      = true :=
  (keyword_rule [("project", Toml.table [("keywords", Toml.arr [Toml.str "python-lib"])])]
      rfl).1.mpr
    ⟨"python-lib", by decide,
      show Toml.str "python-lib" ∈ [Toml.str "python-lib"] from List.mem_singleton.mpr rfl⟩

/-- C4 counterexample: with neither a modern nor a legacy type checker
configured, the type-checker primary result is a warning-severity
failure, not the error-severity hard failure the claim states. -/
theorem code_quality_counterexample :
    (toolOf [("project", Toml.table [])]).hasKey "pyright" = false ∧
    (toolOf [("project", Toml.table [])]).hasKey "basedpyright" = false ∧
    (toolOf [("project", Toml.table [])]).hasKey "mypy" = false ∧
    (check_code_quality_tools [("project", Toml.table [])]).getLast? =
      some ⟨"Type Checker", "Code Quality", false, "Pyright not configured", "warning"⟩ ∧
    "warning" ≠ "error" :=
  ⟨rfl, rfl, rfl, rfl, by decide⟩

/-- C4 (amended): for every non-empty configuration, a legacy-only tool
yields a passed-false warning-severity primary result for both
evaluations; with neither tool, the linter/formatter primary result is an
error-severity hard failure but the type-checker primary result is a
warning-severity failure. -/
theorem code_quality_rule_amended (config : Config) (h : config.isEmpty = false) :
    ((toolOf config).hasKey "ruff" = false ∧ (toolOf config).hasKey "black" = true →
      (check_code_quality_tools config).head? =
        some ⟨"Linter/Formatter", "Code Quality", false, "Uses Black (should migrate to Ruff)",
          "warning"⟩) ∧
    ((toolOf config).hasKey "ruff" = false ∧ (toolOf config).hasKey "black" = false →
      (check_code_quality_tools config).head? =
        some ⟨"Linter/Formatter", "Code Quality", false, "No linter/formatter configured",
          "error"⟩) ∧
    ((toolOf config).hasKey "pyright" = false ∧ (toolOf config).hasKey "basedpyright" = false ∧
        (toolOf config).hasKey "mypy" = true →
      (check_code_quality_tools config).getLast? =
        some ⟨"Type Checker", "Code Quality", false, "Uses mypy (consider pyright)",
          "warning"⟩) ∧
    ((toolOf config).hasKey "pyright" = false ∧ (toolOf config).hasKey "basedpyright" = false ∧
        (toolOf config).hasKey "mypy" = false →
      (check_code_quality_tools config).getLast? =
        some ⟨"Type Checker", "Code Quality", false, "Pyright not configured", "warning"⟩) := by
  refine ⟨?_, ?_, ?_, ?_⟩
  · rintro ⟨hr, hb⟩
    rw [check_code_quality_tools_eq config h]
    unfold linterChecks
    rw [item_none_of_hasKey_false hr, hb]
    rfl
  · rintro ⟨hr, hb⟩
    rw [check_code_quality_tools_eq config h]
    unfold linterChecks
    rw [item_none_of_hasKey_false hr, hb]
    rfl
  · rintro ⟨hp, hbp, hm⟩
    rw [check_code_quality_tools_eq config h, List.getLast?_concat]
    unfold typeCheckerCheck
    rw [hp, hbp, hm]
    rfl
  · rintro ⟨hp, hbp, hm⟩
    rw [check_code_quality_tools_eq config h, List.getLast?_concat]
    unfold typeCheckerCheck
    rw [hp, hbp, hm]
    rfl

/-- Witness for the amended C4 at a configuration with Black and mypy but
no modern tools: both primary results are passed-false warnings. -/
theorem code_quality_rule_amended_witness :
    (check_code_quality_tools
        [("tool", Toml.table [("black", Toml.table []), ("mypy", Toml.table [])])]).head? =
      some ⟨"Linter/Formatter", "Code Quality", false, "Uses Black (should migrate to Ruff)",
        "warning"⟩ ∧
    (check_code_quality_tools
        [("tool", Toml.table [("black", Toml.table []), ("mypy", Toml.table [])])]).getLast? =
      some ⟨"Type Checker", "Code Quality", false, "Uses mypy (consider pyright)", "warning"⟩ :=
  ⟨(code_quality_rule_amended
      [("tool", Toml.table [("black", Toml.table []), ("mypy", Toml.table [])])] rfl).1
      ⟨rfl, rfl⟩,
   (code_quality_rule_amended
      [("tool", Toml.table [("black", Toml.table []), ("mypy", Toml.table [])])] rfl).2.2.1
      ⟨rfl, rfl, rfl⟩⟩

/-- A per-plugin check is named after its plugin in both branches. -/
lemma pluginCheck_name (plugins : Toml) (p : String) :
    (pluginCheck plugins p).name = "Poetry Plugin: " ++ p := by
  unfold pluginCheck
  split <;> rfl

/-- The version check appended by `check_poetry_configuration` is always
named `Poetry Version`, in every branch. -/
lemma poetryVersionCheck_name (config : Config) (poetry : Toml) :
    (poetryVersionCheck config poetry).name = "Poetry Version" := by
  unfold poetryVersionCheck
  split
  · unfold poetryReqCheck
    split <;> rfl
  · split
    · unfold buildReqCheck
      split <;> rfl
    · rfl

/-- C10: `check_poetry_configuration` always returns a non-empty list
containing exactly one check named `Poetry Version`; every other entry is
one of the per-plugin checks named `Poetry Plugin: <name>`. -/
theorem poetry_rule_shape (config : Config) :
    check_poetry_configuration config ≠ [] ∧
    (check_poetry_configuration config).countP (fun c => c.name == "Poetry Version") = 1 ∧
    ((check_poetry_configuration config).all fun c =>
      c.name == "Poetry Version"
        || required_plugins.any (fun p => c.name == "Poetry Plugin: " ++ p)) = true := by
  unfold check_poetry_configuration
  split
  · exact ⟨by simp, rfl, rfl⟩
  · split
    · exact ⟨by simp, rfl, rfl⟩
    · next poetry _ =>
      have hvn := poetryVersionCheck_name config poetry
      refine ⟨by simp, ?_, ?_⟩
      · rw [List.countP_append, List.countP_singleton]
        have h1 : (pluginChecks poetry).countP (fun c => c.name == "Poetry Version") = 0 := by
          unfold pluginChecks
          split
          · simp only [required_plugins, List.map_cons, List.map_nil, List.countP_cons,
              List.countP_nil, pluginCheck_name]
            decide
          · rfl
        rw [h1, hvn]
        simp
      · rw [List.all_append]
        have h1 : ((pluginChecks poetry).all fun c =>
            c.name == "Poetry Version"
              || required_plugins.any (fun p => c.name == "Poetry Plugin: " ++ p)) = true := by
          unfold pluginChecks
          split
          · simp only [required_plugins, List.map_cons, List.map_nil, List.all_cons,
              List.all_nil, List.any_cons, List.any_nil, pluginCheck_name]
            decide
          · rfl
        rw [h1]
        simp only [Bool.true_and, List.all_cons, List.all_nil, hvn]
        decide

/-- C3 counterexample: for a local target whose path is missing, the scan
does produce a report — containing the single failing `Repository Access`
check — and exits via the score path with code 1, not the exit-code-2
fatal path. -/
theorem local_missing_path_counterexample :
    mainLocalScan ⟨false, false, fun _ => false, [], [], fun _ => "", "/missing/proj", "proj"⟩ =
      Except.ok
        ({ repo_identifier := "/missing/proj", repo_name := "proj", repo_type := "local",
           checks := [⟨"Repository Access", "Infrastructure", false,
             "Path does not exist or is not a directory: /missing/proj", "error"⟩] }, 1) ∧
    (1 : Nat) ≠ 2 := by
  constructor
  · unfold mainLocalScan localCheckRepository
    norm_num [calculate_score, total_checks, passed_checks, SCORE_GOOD, List.countP_cons]
    rfl
  · decide

/-- C3 (amended): for every local target whose path does not exist or is
not a directory, `check_repository` still produces a report, holding
exactly one failing error-severity `Repository Access` check and nothing
else, and the scan terminates normally with exit code 1 (score 0). -/
theorem local_missing_path_report (fs : LocalFS)
    (h : (fs.pathExists && fs.isDirectory) = false) :
    localCheckRepository fs =
      { repo_identifier := fs.pathStr, repo_name := fs.repoName, repo_type := "local",
        checks := [⟨"Repository Access", "Infrastructure", false,
          "Path does not exist or is not a directory: " ++ fs.pathStr, "error"⟩] } ∧
    mainLocalScan fs =
      Except.ok
        ({ repo_identifier := fs.pathStr, repo_name := fs.repoName, repo_type := "local",
           checks := [⟨"Repository Access", "Infrastructure", false,
             "Path does not exist or is not a directory: " ++ fs.pathStr, "error"⟩] }, 1) := by
  have hrep : localCheckRepository fs =
      { repo_identifier := fs.pathStr, repo_name := fs.repoName, repo_type := "local",
        checks := [⟨"Repository Access", "Infrastructure", false,
          "Path does not exist or is not a directory: " ++ fs.pathStr, "error"⟩] } := by
    unfold localCheckRepository
    rw [h]
    rfl
  refine ⟨hrep, ?_⟩
  unfold mainLocalScan
  rw [hrep]
  norm_num [calculate_score, total_checks, passed_checks, SCORE_GOOD, List.countP_cons]

/-- Witness for the amended C3 at a concrete missing path. -/
theorem local_missing_path_report_witness :
    localCheckRepository ⟨true, false, fun _ => false, [], [], fun _ => "", "/not/a/dir", "dir"⟩ =
      { repo_identifier := "/not/a/dir", repo_name := "dir", repo_type := "local",
        checks := [⟨"Repository Access", "Infrastructure", false,
          "Path does not exist or is not a directory: /not/a/dir", "error"⟩] } ∧
    mainLocalScan ⟨true, false, fun _ => false, [], [], fun _ => "", "/not/a/dir", "dir"⟩ =
      Except.ok
        ({ repo_identifier := "/not/a/dir", repo_name := "dir", repo_type := "local",
           checks := [⟨"Repository Access", "Infrastructure", false,
             "Path does not exist or is not a directory: /not/a/dir", "error"⟩] }, 1) :=
  local_missing_path_report ⟨true, false, fun _ => false, [], [], fun _ => "", "/not/a/dir", "dir"⟩
    rfl

/-- C7: when the underlying `gh` invocation for a file-existence query
times out (or fails), `_run_gh_command` converts it to the same `None`
sentinel as a true absence, so `_file_exists` returns `false` instead of
raising; and the additional-files stage still emits all six of its checks
for every oracle, so the remaining pipeline stages are not aborted. -/
theorem remote_timeout_file_exists (oracle : GhOracle) (repo path : String) (config : Config)
    (h : oracle (fileExistsArgs repo path) = GhOutcome.timeout ∨
      oracle (fileExistsArgs repo path) = GhOutcome.failure) :
    runGhCommand oracle (fileExistsArgs repo path) = none ∧
    ghFileExists oracle repo path = false ∧
    (githubAdditionalChecks oracle repo config).map (fun c => c.name) =
      ["README.md", "SRD.md", "Poetry Lock File", "Python Manager Workflow",
       "Ruff Formatting Workflow", "SonarCloud"] := by
  have hrun : runGhCommand oracle (fileExistsArgs repo path) = none := by
    unfold runGhCommand
    rcases h with h | h <;> rw [h]
  refine ⟨hrun, ?_, ?_⟩
  · unfold ghFileExists
    rw [hrun]
  · unfold githubAdditionalChecks
    simp only [List.map_cons, List.map_nil,
      apply_ite (fun c : ComplianceCheck => c.name), ite_self]
    unfold sonarVersionCheck
    simp only [apply_ite (fun c : ComplianceCheck => c.name), ite_self]

/-- Witness for C7: the all-timeout oracle yields `false` for
`_file_exists` and the full six-stage additional-files sequence. -/
theorem remote_timeout_file_exists_witness :
    ghFileExists (fun _ => GhOutcome.timeout) "acme/widget" "README.md" = false ∧
    (githubAdditionalChecks (fun _ => GhOutcome.timeout) "acme/widget" []).map
        (fun c => c.name) =
      ["README.md", "SRD.md", "Poetry Lock File", "Python Manager Workflow",
       "Ruff Formatting Workflow", "SonarCloud"] :=
  ⟨(remote_timeout_file_exists (fun _ => GhOutcome.timeout) "acme/widget" "README.md" []
      (Or.inl rfl)).2.1,
   (remote_timeout_file_exists (fun _ => GhOutcome.timeout) "acme/widget" "README.md" []
      (Or.inl rfl)).2.2⟩

/-- `stripLit` succeeds exactly on inputs that extend the literal. -/
lemma stripLit_eq_some : ∀ (p l r : List Char), (stripLit p l = some r ↔ l = p ++ r)
  | [], l, r => by simp [stripLit]
  | a :: ps, [], r => by simp [stripLit]
  | a :: ps, c :: cs, r => by
    unfold stripLit
    by_cases hac : a = c
    · subst hac
      rw [if_pos rfl, stripLit_eq_some ps cs r]
      simp
    · rw [if_neg hac]
      constructor
      · intro hh
        exact absurd hh (by simp)
      · intro hh
        rw [List.cons_append, List.cons.injEq] at hh
        exact absurd hh.1.symm hac

/-- Dropping a satisfying prefix steps over it. -/
lemma dropWhile_append_all {p : Char → Bool} :
    ∀ {w l : List Char}, (∀ c ∈ w, p c = true) →
      List.dropWhile p (w ++ l) = List.dropWhile p l
  | [], _, _ => rfl
  | c :: cs, l, h => by
    show List.dropWhile p (c :: (cs ++ l)) = _
    rw [List.dropWhile_cons, if_pos (h c (by simp))]
    exact dropWhile_append_all (fun x hx => h x (by simp [hx]))

/-- Dropping from an all-satisfying list leaves nothing. -/
lemma dropWhile_all_eq_nil {p : Char → Bool} {w : List Char} (h : ∀ c ∈ w, p c = true) :
    List.dropWhile p w = [] := by
  have := dropWhile_append_all (l := []) h
  rwa [List.append_nil] at this

/-- A successful `munchSeg` splits off a non-empty word-dash run. -/
lemma munchSeg_decomp {l r : List Char} (h : munchSeg l = some r) :
    ∃ w, w ≠ [] ∧ (∀ c ∈ w, isWordDash c = true) ∧ l = w ++ r := by
  cases l with
  | nil => exact absurd h (by simp [munchSeg])
  | cons c cs =>
    simp only [munchSeg] at h
    by_cases hc : isWordDash c = true
    · rw [if_pos hc] at h
      injection h with h
      refine ⟨c :: cs.takeWhile isWordDash, by simp, ?_, ?_⟩
      · intro x hx
        rcases List.mem_cons.mp hx with rfl | hx
        · exact hc
        · exact List.mem_takeWhile_imp hx
      · rw [← h, List.cons_append, List.takeWhile_append_dropWhile]
    · rw [if_neg hc] at h
      exact absurd h (by simp)

/-- `munchSeg` succeeds on any input starting with a word-dash run. -/
lemma munchSeg_isSome_append {w r : List Char} (hw : w ≠ [])
    (hall : ∀ c ∈ w, isWordDash c = true) :
    (munchSeg (w ++ r)).isSome = true := by
  cases w with
  | nil => exact absurd rfl hw
  | cons c cs =>
    show (munchSeg (c :: (cs ++ r))).isSome = true
    simp only [munchSeg]
    rw [if_pos (hall c (by simp))]
    rfl

/-- `munchSeg` before a slash consumes exactly the word-dash run. -/
lemma munchSeg_before_slash {o tail : List Char} (ho : o ≠ [])
    (hall : ∀ c ∈ o, isWordDash c = true) :
    munchSeg (o ++ '/' :: tail) = some ('/' :: tail) := by
  cases o with
  | nil => exact absurd rfl ho
  | cons c cs =>
    show munchSeg (c :: (cs ++ '/' :: tail)) = _
    simp only [munchSeg]
    rw [if_pos (hall c (by simp))]
    rw [dropWhile_append_all (fun x hx => hall x (by simp [hx]))]
    rw [List.dropWhile_cons, if_neg (by decide)]

/-- `munchSeg` consumes an entire all-word-dash input. -/
lemma munchSeg_all {w : List Char} (hw : w ≠ []) (hall : ∀ c ∈ w, isWordDash c = true) :
    munchSeg w = some [] := by
  cases w with
  | nil => exact absurd rfl hw
  | cons c cs =>
    simp only [munchSeg]
    rw [if_pos (hall c (by simp))]
    rw [dropWhile_all_eq_nil (fun x hx => hall x (by simp [hx]))]

/-- `matchPair` succeeds exactly on `OWNER/NAME...` shapes. -/
lemma matchPair_isSome_iff {l : List Char} :
    (matchPair l).isSome = true ↔
      ∃ o n rest, WordSeg o ∧ WordSeg n ∧ l = o ++ '/' :: (n ++ rest) := by
  constructor
  · intro h
    cases h1 : munchSeg l with
    | none => rw [matchPair, h1] at h; exact absurd h (by simp)
    | some r1 =>
      cases r1 with
      | nil => rw [matchPair, h1] at h; exact absurd h (by simp)
      | cons c r2 =>
        rw [matchPair, h1] at h
        change (if c = '/' then munchSeg r2 else none).isSome = true at h
        by_cases hc : c = '/'
        · subst hc
          rw [if_pos rfl] at h
          cases h2 : munchSeg r2 with
          | none => rw [h2] at h; exact absurd h (by simp)
          | some r3 =>
            obtain ⟨o, ho, hoall, hol⟩ := munchSeg_decomp h1
            obtain ⟨n, hn, hnall, hnr⟩ := munchSeg_decomp h2
            exact ⟨o, n, r3, ⟨ho, hoall⟩, ⟨hn, hnall⟩, by rw [hol, hnr]⟩
        · rw [if_neg hc] at h
          exact absurd h (by simp)
  · rintro ⟨o, n, rest, ⟨ho, hoall⟩, ⟨hn, hnall⟩, rfl⟩
    rw [matchPair, munchSeg_before_slash ho hoall]
    show (if ('/' : Char) = '/' then munchSeg (n ++ rest) else none).isSome = true
    rw [if_pos rfl]
    exact munchSeg_isSome_append hn hnall

/-- `matchPair` consumes everything exactly on full `OWNER/NAME` shapes. -/
lemma matchPair_eq_some_nil_iff {l : List Char} :
    matchPair l = some [] ↔ ∃ o n, WordSeg o ∧ WordSeg n ∧ l = o ++ '/' :: n := by
  constructor
  · intro h
    cases h1 : munchSeg l with
    | none => rw [matchPair, h1] at h; exact absurd h (by simp)
    | some r1 =>
      cases r1 with
      | nil => rw [matchPair, h1] at h; exact absurd h (by simp)
      | cons c r2 =>
        rw [matchPair, h1] at h
        change (if c = '/' then munchSeg r2 else none) = some [] at h
        by_cases hc : c = '/'
        · subst hc
          rw [if_pos rfl] at h
          obtain ⟨o, ho, hoall, hol⟩ := munchSeg_decomp h1
          obtain ⟨n, hn, hnall, hnr⟩ := munchSeg_decomp h
          rw [List.append_nil] at hnr
          exact ⟨o, n, ⟨ho, hoall⟩, ⟨hn, hnall⟩, by rw [hol, hnr]⟩
        · rw [if_neg hc] at h
          exact absurd h (by simp)
  · rintro ⟨o, n, ⟨ho, hoall⟩, ⟨hn, hnall⟩, rfl⟩
    rw [matchPair, munchSeg_before_slash ho hoall]
    show (if ('/' : Char) = '/' then munchSeg n else none) = some []
    rw [if_pos rfl]
    exact munchSeg_all hn hnall

/-- `pairAfterLit` succeeds exactly on `<literal>OWNER/NAME...` shapes. -/
lemma pairAfterLit_iff (pre l : List Char) :
    pairAfterLit pre l = true ↔
      ∃ o n rest, WordSeg o ∧ WordSeg n ∧ l = pre ++ (o ++ '/' :: (n ++ rest)) := by
  cases hs : stripLit pre l with
  | none =>
    rw [pairAfterLit, hs]
    constructor
    · intro h; exact absurd h (by simp)
    · rintro ⟨o, n, rest, _, _, hl⟩
      have := (stripLit_eq_some pre l (o ++ '/' :: (n ++ rest))).mpr hl
      rw [hs] at this
      exact absurd this (by simp)
  | some r =>
    rw [pairAfterLit, hs]
    have hl : l = pre ++ r := (stripLit_eq_some pre l r).mp hs
    rw [matchPair_isSome_iff]
    constructor
    · rintro ⟨o, n, rest, ho, hn, hr⟩
      exact ⟨o, n, rest, ho, hn, by rw [hl, hr]⟩
    · rintro ⟨o, n, rest, ho, hn, hl2⟩
      refine ⟨o, n, rest, ho, hn, ?_⟩
      rw [hl] at hl2
      exact List.append_cancel_left hl2

/-- Splitting the `http://` literal after its first four characters. -/
lemma http_split (r : List Char) :
    "http://".data ++ r = "http".data ++ ("://".data ++ r) := by
  rw [← List.append_assoc]
  rfl

/-- Splitting the `https://` literal after its first four characters. -/
lemma https_split (r : List Char) :
    "https://".data ++ r = "http".data ++ ("s://".data ++ r) := by
  rw [← List.append_assoc]
  rfl

/-- No string extends both schemes (they differ at index 4). -/
lemma scheme_disjoint {r r' : List Char} : "http://".data ++ r ≠ "https://".data ++ r' := by
  intro h
  have h4 : ("http://".data ++ r)[4]? = some ':' := by
    rw [List.getElem?_append_left (by decide)]
    decide
  rw [h, List.getElem?_append_left (by decide)] at h4
  exact absurd h4 (by decide)

/-- `stripScheme` succeeds exactly on inputs extending one of the two
schemes (matching the optional-`s` backtracking of `https?://`). -/
lemma stripScheme_eq_some (l r : List Char) :
    stripScheme l = some r ↔ (l = "http://".data ++ r ∨ l = "https://".data ++ r) := by
  unfold stripScheme
  cases h4 : stripLit "http".data l with
  | none =>
    constructor
    · intro hh
      exact absurd hh (by simp)
    · rintro (hl | hl)
      · have hsome : stripLit "http".data l = some ("://".data ++ r) :=
          (stripLit_eq_some _ _ _).mpr (by rw [hl, http_split])
        rw [h4] at hsome
        exact absurd hsome (by simp)
      · have hsome : stripLit "http".data l = some ("s://".data ++ r) :=
          (stripLit_eq_some _ _ _).mpr (by rw [hl, https_split])
        rw [h4] at hsome
        exact absurd hsome (by simp)
  | some r1 =>
    have hl1 : l = "http".data ++ r1 := (stripLit_eq_some _ _ _).mp h4
    show (match stripLit "s://".data r1 with
          | some r2 => some r2
          | none => stripLit "://".data r1) = some r ↔
        (l = "http://".data ++ r ∨ l = "https://".data ++ r)
    cases h5 : stripLit "s://".data r1 with
    | some r2 =>
      have hr1 : r1 = "s://".data ++ r2 := (stripLit_eq_some _ _ _).mp h5
      have hX : l = "https://".data ++ r2 := by rw [hl1, hr1, https_split]
      show some r2 = some r ↔ _
      constructor
      · intro hh
        injection hh with hh
        subst hh
        exact Or.inr hX
      · rintro (hcase | hcase)
        · exact absurd (hcase.symm.trans hX) scheme_disjoint
        · rw [hX] at hcase
          exact congrArg some (List.append_cancel_left hcase)
    | none =>
      show stripLit "://".data r1 = some r ↔ _
      cases h6 : stripLit "://".data r1 with
      | some r2 =>
        have hr1 : r1 = "://".data ++ r2 := (stripLit_eq_some _ _ _).mp h6
        have hX : l = "http://".data ++ r2 := by rw [hl1, hr1, http_split]
        constructor
        · intro hh
          injection hh with hh
          subst hh
          exact Or.inl hX
        · rintro (hcase | hcase)
          · rw [hX] at hcase
            exact congrArg some (List.append_cancel_left hcase)
          · exact absurd (hX.symm.trans hcase) scheme_disjoint
      | none =>
        constructor
        · intro hh
          exact absurd hh (by simp)
        · rintro (hcase | hcase)
          · have hr1 : r1 = "://".data ++ r := by
              have hh := hl1.symm.trans hcase
              rw [http_split] at hh
              exact List.append_cancel_left hh
            have hsome : stripLit "://".data r1 = some r :=
              (stripLit_eq_some _ _ _).mpr hr1
            rw [h6] at hsome
            exact absurd hsome (by simp)
          · have hr1 : r1 = "s://".data ++ r := by
              have hh := hl1.symm.trans hcase
              rw [https_split] at hh
              exact List.append_cancel_left hh
            have hsome : stripLit "s://".data r1 = some r :=
              (stripLit_eq_some _ _ _).mpr hr1
            rw [h5] at hsome
            exact absurd hsome (by simp)

/-- The HTTP(S) pattern matcher agrees with its declarative reading. -/
lemma matchHttpGithub_iff (s : String) : matchHttpGithub s = true ↔ HttpSpec s := by
  unfold matchHttpGithub HttpSpec
  cases hs : stripScheme s.data with
  | none =>
    show false = true ↔ _
    constructor
    · intro h
      exact absurd h (by simp)
    · rintro ⟨scheme, o, n, rest, hscheme, ho, hn, hl⟩
      have hsome : stripScheme s.data = some ("github.com/".data ++ (o ++ '/' :: (n ++ rest))) := by
        rw [stripScheme_eq_some]
        rcases hscheme with rfl | rfl
        · exact Or.inl hl
        · exact Or.inr hl
      rw [hs] at hsome
      exact absurd hsome (by simp)
  | some r =>
    show pairAfterLit "github.com/".data r = true ↔ _
    have hl := (stripScheme_eq_some s.data r).mp hs
    rw [pairAfterLit_iff]
    constructor
    · rintro ⟨o, n, rest, ho, hn, hr⟩
      rcases hl with hcase | hcase
      · exact ⟨"http://", o, n, rest, Or.inl rfl, ho, hn, by rw [hcase, hr]⟩
      · exact ⟨"https://", o, n, rest, Or.inr rfl, ho, hn, by rw [hcase, hr]⟩
    · rintro ⟨scheme, o, n, rest, hscheme, ho, hn, hsl⟩
      refine ⟨o, n, rest, ho, hn, ?_⟩
      rcases hl with hcase | hcase <;> rcases hscheme with rfl | rfl
      · rw [hcase] at hsl
        exact List.append_cancel_left hsl
      · exact absurd (hcase.symm.trans hsl) scheme_disjoint
      · exact absurd (hsl.symm.trans hcase) scheme_disjoint
      · rw [hcase] at hsl
        exact List.append_cancel_left hsl

/-- The `git@` pattern matcher agrees with its declarative reading. -/
lemma matchGitAtGithub_iff (s : String) : matchGitAtGithub s = true ↔ GitAtSpec s := by
  unfold matchGitAtGithub GitAtSpec
  exact pairAfterLit_iff _ _

/-- The bare-host pattern matcher agrees with its declarative reading. -/
lemma matchBareGithub_iff (s : String) : matchBareGithub s = true ↔ BareHostSpec s := by
  unfold matchBareGithub BareHostSpec
  exact pairAfterLit_iff _ _

/-- The anchored `OWNER/NAME` matcher agrees with its declarative reading. -/
lemma matchOwnerRepo_iff (s : String) : matchOwnerRepo s = true ↔ OwnerRepoSpec s := by
  unfold matchOwnerRepo OwnerRepoSpec
  rw [beq_iff_eq]
  exact matchPair_eq_some_nil_iff

/-- C9: `determine_repository_type` returns `github` exactly on strings
matching one of the four remote patterns (with `OWNER`/`NAME` runs of
word-characters and hyphens) and `local` otherwise; in particular on the
spec's four examples. -/
theorem repository_type_detection :
    (∀ s : String, determine_repository_type s = "github" ↔ MatchesRemotePattern s) ∧
    determine_repository_type "https://github.com/acme/widget" = "github" ∧
    determine_repository_type "acme/widget" = "github" ∧
    determine_repository_type "/home/x/project" = "local" ∧
    determine_repository_type "C:\\proj" = "local" := by
  refine ⟨?_, by decide, by decide, by decide, by decide⟩
  intro s
  unfold determine_repository_type MatchesRemotePattern
  by_cases hb : (matchHttpGithub s || matchGitAtGithub s || matchBareGithub s
      || matchOwnerRepo s) = true
  · rw [if_pos hb]
    simp only [Bool.or_eq_true] at hb
    constructor
    · intro _
      rcases hb with ((h1 | h2) | h3) | h4
      · exact Or.inl ((matchHttpGithub_iff s).mp h1)
      · exact Or.inr (Or.inl ((matchGitAtGithub_iff s).mp h2))
      · exact Or.inr (Or.inr (Or.inl ((matchBareGithub_iff s).mp h3)))
      · exact Or.inr (Or.inr (Or.inr ((matchOwnerRepo_iff s).mp h4)))
    · intro _
      rfl
  · rw [if_neg hb]
    constructor
    · intro h
      exact absurd h (by decide)
    · intro h
      exfalso
      apply hb
      simp only [Bool.or_eq_true]
      rcases h with h1 | h2 | h3 | h4
      · exact Or.inl (Or.inl (Or.inl ((matchHttpGithub_iff s).mpr h1)))
      · exact Or.inl (Or.inl (Or.inr ((matchGitAtGithub_iff s).mpr h2)))
      · exact Or.inl (Or.inr ((matchBareGithub_iff s).mpr h3))
      · exact Or.inr ((matchOwnerRepo_iff s).mpr h4)
